import Mathlib

/-!
Shallow embedding of the project-monitoring dashboard (streamlit_new.py).
Cell values are pandas object scalars (strings, ints, bools); a missing
cell (NaN) is Option.none at every use site.  A DataFrame keeps, for each
row, its pandas index label together with its cells: pandas boolean-mask
filtering keeps the original labels, and iterrows yields those labels.
-/

/-- Scalar cell values of the dashboard table: strings, integers, or
booleans.  A missing cell (NaN) is represented by Option.none at use
sites, never by a Value. -/
inductive Value where
  | str (s : String)
  | int (n : Int)
  | bool (b : Bool)
deriving DecidableEq

/-- Python truthiness of a scalar: empty string, 0 and False are falsy. -/
def Value.truthy : Value → Bool
  | .str s => decide (s ≠ "")
  | .int n => decide (n ≠ 0)
  | .bool b => b

/-- Python equality between scalars: within a type it is plain equality,
and a bool compares equal to the corresponding int (True == 1, False == 0);
strings never equal numbers. -/
def Value.pyEq : Value → Value → Bool
  | .str s, .str t => decide (s = t)
  | .int m, .int n => decide (m = n)
  | .bool a, .bool b => decide (a = b)
  | .int m, .bool b => decide (m = (if b then (1 : Int) else 0))
  | .bool a, .int n => decide ((if a then (1 : Int) else 0) = n)
  | _, _ => false

/-- Numeric reading of a scalar, for the numeric comparisons Python
performs between ints and bools. -/
def Value.numVal : Value → Int
  | .int n => n
  | .bool b => if b then 1 else 0
  | .str _ => 0

/-- Lexicographic order on character lists by code point, the order
Python uses to compare strings. -/
def charListLe : List Char → List Char → Bool
  | [], _ => true
  | _ :: _, [] => false
  | a :: as, b :: bs =>
    if a.toNat = b.toNat then charListLe as bs
    else decide (a.toNat < b.toNat)

/-- Python string comparison, over the underlying character lists. -/
def strLe (s t : String) : Bool := charListLe s.data t.data

/-- Python ordering on scalars as used by sorted(): strings compare
lexicographically with each other, ints and bools compare numerically.
The cross-type order (numbers before strings) is an arbitrary total
completion; Python raises there, and the dashboard only sorts one
column's homogeneous values. -/
def valueLe : Value → Value → Bool
  | .str s, .str t => strLe s t
  | .str _, _ => false
  | _, .str _ => true
  | a, b => decide (a.numVal ≤ b.numVal)

/-- Rendering of a cell by a Python f-string: str prints itself, ints and
bools print their repr, a missing cell prints nan. -/
def cellStr : Option Value → String
  | none => "nan"
  | some (.str s) => s
  | some (.int n) => toString n
  | some (.bool b) => if b then "True" else "False"

/-- Truthiness of a constraint value; Python None (no selection) is falsy. -/
def cvalTruthy : Option Value → Bool
  | none => false
  | some v => v.truthy

/-- Elementwise pandas == between a cell and a constraint value: a missing
cell (NaN) never matches, and a constraint of None is handled before any
comparison, so it matches nothing here. -/
def cellMatches : Option Value → Option Value → Bool
  | some c, some v => c.pyEq v
  | _, _ => false

/-- A table row: its pandas index label paired with its cells, one per
column in column order. -/
abbrev Row := Nat × List (Option Value)

/-- A Filter Constraint Set: column names mapped to the selected value
(none meaning no selection), in insertion order as a Python dict iterates. -/
abbrev Filters := List (String × Option Value)

/-- In-memory table: ordered column names and labelled rows. -/
structure DataFrame where
  cols : List String
  rows : List Row
deriving DecidableEq

/-- pandas DataFrame.empty: true when any axis has length zero. -/
def DataFrame.empty (df : DataFrame) : Bool :=
  df.rows.isEmpty || df.cols.isEmpty

/-- Cell lookup row[col]: the cell at the position of col among the column
names (none when the column is absent or the row is short). -/
def rowGet (cols : List String) (cells : List (Option Value)) (col : String) : Option Value :=
  match cols.indexOf? col with
  | some i => cells.getD i none
  | none => none

/-- The constraint loop of get_filtered_values (lines 23-25): for each
constraint whose value is truthy and whose column is among the original
column names, keep only the rows whose cell equals the value. -/
def applyFilters (cols : List String) (filters : Filters) (rows : List Row) : List Row :=
  filters.foldl
    (fun acc p =>
      if cvalTruthy p.2 && cols.contains p.1 then
        acc.filter (fun r => cellMatches (rowGet cols r.2 p.1) p.2)
      else acc)
    rows

/-- The Row Filter: the constraint loop applied to a whole table; column
names are unchanged and row labels are preserved. -/
def rowFilter (df : DataFrame) (filters : Filters) : DataFrame :=
  ⟨df.cols, applyFilters df.cols filters df.rows⟩

/-- Retention predicate of one row's cells under a constraint set:
every truthy constraint on a present column must match the cell. -/
def keepCells (cols : List String) (filters : Filters) (cells : List (Option Value)) : Bool :=
  filters.all
    (fun p =>
      if cvalTruthy p.2 && cols.contains p.1 then
        cellMatches (rowGet cols cells p.1) p.2
      else true)

/-- Retention predicate on a labelled row. -/
def keepRow (cols : List String) (filters : Filters) (r : Row) : Bool :=
  keepCells cols filters r.2

/-- Series.dropna on a column: missing cells are removed. -/
def dropna (l : List (Option Value)) : List Value :=
  l.filterMap id

/-- pandas unique with Python equality, keeping first occurrences:
the accumulator seen holds the values already emitted. -/
def pyUniqueAux (seen : List Value) : List Value → List Value
  | [] => []
  | v :: vs =>
    if seen.any (fun w => w.pyEq v) then pyUniqueAux seen vs
    else v :: pyUniqueAux (v :: seen) vs

/-- pandas Series.unique on a list of scalars. -/
def pyUnique (xs : List Value) : List Value :=
  pyUniqueAux [] xs

/-- Insertion into a list sorted by valueLe. -/
def insertSorted (v : Value) : List Value → List Value
  | [] => [v]
  | w :: ws => if valueLe v w then v :: w :: ws else w :: insertSorted v ws

/-- Python sorted() over scalars, as an insertion sort by valueLe. -/
def pySort : List Value → List Value
  | [] => []
  | v :: vs => insertSorted v (pySort vs)

/-- get_filtered_values (lines 19-28): if the target column is present,
filter by the truthy constraints on present columns, then return the
sorted unique non-missing values of the target column; otherwise the
empty list. -/
def get_filtered_values (df : DataFrame) (column_name : String) (filters : Filters) : List Value :=
  if df.cols.contains column_name then
    pySort (pyUnique (dropna ((rowFilter df filters).rows.map
      (fun r => rowGet df.cols r.2 column_name))))
  else []

/-- The fixed five-color Status Palette (line 32). -/
def status_colors : List String :=
  ["#4CAF50", "#FFC107", "#FF9800", "#8B0000", "#FF0000"]

/-- apply_status_background (lines 30-33): cycle through the palette by
index mod palette length. -/
def apply_status_background (index : Nat) : String :=
  status_colors.getD (index % status_colors.length) ""

/-- The fixed no-data message (line 38). -/
def noDataMsg : String := "<p>No data available.</p>"

/-- Opening tag of the rendered table (line 41). -/
def tableOpenHtml : String :=
  "<table style=\x27width:100%; border-collapse: collapse;\x27>"

/-- Opening of a header cell (line 46). -/
def thOpenHtml : String :=
  "<th style=\x27border: 1px solid #ddd; padding: 8px; text-align: left;\x27>"

/-- Opening of a plain data cell (line 57). -/
def tdPlainHtml : String :=
  "<td style=\x27border: 1px solid #ddd; padding: 8px;\x27>"

/-- Opening of a Project Status cell up to its background color (line 55). -/
def tdStatusHtmlA : String :=
  "<td style=\x27border: 1px solid #ddd; padding: 8px; background-color: "

/-- Remainder of a Project Status cell opening after the color (line 55). -/
def tdStatusHtmlB : String :=
  "; color: white; font-weight: bold;\x27>"

/-- Header row of the rendered table (lines 44-47). -/
def header_row (columns : List String) : String :=
  "<tr style=\x27background-color: #f2f2f2;\x27>" ++
    String.join (columns.map (fun col => thOpenHtml ++ col ++ "</th>")) ++ "</tr>"

/-- One data row of the rendered table (lines 50-58): the loop variable i
of iterrows is the row's index label r.1, and the Project Status cell is
colored by apply_status_background of that label. -/
def render_row (columns : List String) (r : Row) : String :=
  "<tr>" ++
    String.join (columns.map (fun col =>
      if col == "Project Status" then
        tdStatusHtmlA ++ apply_status_background r.1 ++ tdStatusHtmlB ++
          cellStr (rowGet columns r.2 col) ++ "</td>"
      else
        tdPlainHtml ++ cellStr (rowGet columns r.2 col) ++ "</td>")) ++ "</tr>"

/-- generate_styled_table_html (lines 35-61): the no-data message on an
empty frame, otherwise header row followed by one rendered row per table
row in order. -/
def generate_styled_table_html (df : DataFrame) : String :=
  if df.empty then noDataMsg
  else
    tableOpenHtml ++ header_row df.cols ++
      String.join (df.rows.map (render_row df.cols)) ++ "</table>"

/-- Python str.endswith over the underlying character lists. -/
def pyEndsWith (s suffix : String) : Bool :=
  decide (s.data.drop (s.data.length - suffix.data.length) = suffix.data)

/-- pandas str.strip: drop leading and trailing whitespace characters. -/
def pyStrip (s : String) : String :=
  ⟨((s.data.dropWhile Char.isWhitespace).reverse.dropWhile Char.isWhitespace).reverse⟩

/-- An uploaded file as load_data sees it: a name, and the outcome either
parser would produce on its bytes (ok table, or the parser's error
message), abstracting the external CSV/Excel readers. -/
structure UploadedFile where
  name : String
  parseExcel : Except String DataFrame
  parseCsv : Except String DataFrame

/-- load_data (lines 4-17): nothing in, nothing out; pick the parser by
the .xlsx extension; on success strip every column name; on a parser
error emit the error message and no table.  The first component is the
message passed to st.error, the second the returned frame. -/
def load_data (uploaded_file : Option UploadedFile) : Option String × Option DataFrame :=
  match uploaded_file with
  | none => (none, none)
  | some f =>
    match (if pyEndsWith f.name (".xlsx") then f.parseExcel else f.parseCsv) with
    | .ok df => (none, some ⟨df.cols.map pyStrip, df.rows⟩)
    | .error e => (some ("Error loading file: " ++ e), none)

/-- Column selection df[col] of the submit handler: a KeyError when the
column is absent, otherwise the mask-filtered frame (labels preserved). -/
def dfMaskFilter (df : DataFrame) (col : String) (v : Option Value) : Except String DataFrame :=
  if df.cols.contains col then
    Except.ok ⟨df.cols, df.rows.filter (fun r => cellMatches (rowGet df.cols r.2 col) v)⟩
  else Except.error ("KeyError: " ++ col)

/-- One conditional of the submit handler (for example lines 96-97): a
falsy selection leaves the frame unchanged, a truthy one mask-filters it. -/
def mainFilterStep (df : DataFrame) (col : String) (sel : Option Value) : Except String DataFrame :=
  if cvalTruthy sel then dfMaskFilter df col sel else Except.ok df

/-- The submit handler's filtering (lines 95-103): the four selections
applied in order to a copy of the loaded frame; a raised KeyError
propagates past the remaining steps. -/
def main_filtered_data (df : DataFrame) (w a k p : Option Value) : Except String DataFrame :=
  match mainFilterStep df ("Week") w with
  | .error e => .error e
  | .ok d1 =>
    match mainFilterStep d1 ("Account Name") a with
    | .error e => .error e
    | .ok d2 =>
      match mainFilterStep d2 ("Client Name") k with
      | .error e => .error e
      | .ok d3 => mainFilterStep d3 ("Project Name") p

/-- Heap view of the resolver's two reference arguments: the frame and
the constraint dict object that get_filtered_values receives (the dict is
the shared mutable default when the caller passes none). -/
structure ResolverEnv where
  dfObj : DataFrame
  filtersObj : Filters
deriving DecidableEq

/-- get_filtered_values as a state transformer over its reference
arguments: the body copies the frame, reads the dict entries, rebinds
only the local filtered_df, and writes neither object, so the
environment comes back as it went in. -/
def get_filtered_values_call (env : ResolverEnv) (column_name : String) :
    List Value × ResolverEnv :=
  if env.dfObj.cols.contains column_name then
    (pySort (pyUnique (dropna ((rowFilter env.dfObj env.filtersObj).rows.map
      (fun r => rowGet env.dfObj.cols r.2 column_name)))), env)
  else ([], env)

/-- Labels of the rows are consecutive starting at n: the shape a freshly
parsed frame's default integer index has. -/
def labelsFrom : Nat → List Row → Prop
  | _, [] => True
  | n, r :: rs => r.1 = n ∧ labelsFrom (n + 1) rs

/-- Labels enumerate positions from 0, as after loading a file. -/
def labelsCanonical (df : DataFrame) : Prop := labelsFrom 0 df.rows

/-- One data row rendered with a given status-cell color: the shape every
data row of the renderer's output has, with the color left as a
parameter so claims can talk about which color each row receives. -/
def row_html_colored (columns : List String) (cells : List (Option Value)) (c : String) : String :=
  "<tr>" ++
    String.join (columns.map (fun col =>
      if col == "Project Status" then
        tdStatusHtmlA ++ c ++ tdStatusHtmlB ++ cellStr (rowGet columns cells col) ++ "</td>"
      else
        tdPlainHtml ++ cellStr (rowGet columns cells col) ++ "</td>")) ++ "</tr>"

/-- Renderer as the original claim words it: the i-th data row's status
cell is colored by the row's position i in the rendered table, counted
from 0, regardless of labels.  Used only to state and refute that claim. -/
def generate_positional_html (df : DataFrame) : String :=
  if df.empty then noDataMsg
  else
    tableOpenHtml ++ header_row df.cols ++
      String.join ((List.enum (df.rows.map Prod.snd)).map
        (fun jc => row_html_colored df.cols jc.2 (apply_status_background jc.1))) ++ "</table>"

/-- Renderer of a filtered table as the amended claim words it: the
surviving rows keep their positions in the original table, and each
status cell is colored by that original position mod 5. -/
def renderByOrigPos (df : DataFrame) (filters : Filters) : String :=
  let survivors := (List.enum (df.rows.map Prod.snd)).filter
    (fun jc => keepCells df.cols filters jc.2)
  if survivors.isEmpty || df.cols.isEmpty then noDataMsg
  else
    tableOpenHtml ++ header_row df.cols ++
      String.join (survivors.map
        (fun jc => row_html_colored df.cols jc.2 (apply_status_background jc.1))) ++ "</table>"

theorem Value.pyEq_refl (v : Value) : v.pyEq v = true := by
  cases v <;> simp [Value.pyEq]

theorem Value.pyEq_symm (a b : Value) : a.pyEq b = b.pyEq a := by
  cases a <;> cases b <;> simp [Value.pyEq, eq_comm]

theorem charListLe_total (as bs : List Char) :
    charListLe as bs = true ∨ charListLe bs as = true := by
  induction as generalizing bs with
  | nil => exact Or.inl rfl
  | cons a as ih =>
    cases bs with
    | nil => exact Or.inr rfl
    | cons b bs =>
      by_cases h : a.toNat = b.toNat
      · rcases ih bs with h1 | h1
        · exact Or.inl (by simp [charListLe, h, h1])
        · exact Or.inr (by simp [charListLe, h.symm, h1])
      · rcases Nat.lt_or_ge a.toNat b.toNat with h2 | h2
        · exact Or.inl (by simp [charListLe, h, h2])
        · have h3 : b.toNat < a.toNat :=
            Nat.lt_of_le_of_ne h2 (fun e => h e.symm)
          have h4 : ¬ b.toNat = a.toNat := fun e => h e.symm
          exact Or.inr (by simp [charListLe, h4, h3])

theorem charListLe_trans (as bs cs : List Char) (h1 : charListLe as bs = true)
    (h2 : charListLe bs cs = true) : charListLe as cs = true := by
  induction as generalizing bs cs with
  | nil => rfl
  | cons a as ih =>
    cases bs with
    | nil => simp [charListLe] at h1
    | cons b bs =>
      cases cs with
      | nil => simp [charListLe] at h2
      | cons c cs =>
        simp only [charListLe] at h1 h2 ⊢
        by_cases hab : a.toNat = b.toNat <;> by_cases hbc : b.toNat = c.toNat
        · rw [if_pos hab] at h1
          rw [if_pos hbc] at h2
          rw [if_pos (hab.trans hbc)]
          exact ih bs cs h1 h2
        · rw [if_pos hab] at h1
          rw [if_neg hbc] at h2
          have hac : ¬ a.toNat = c.toNat := by rw [hab]; exact hbc
          rw [if_neg hac]
          rw [hab]
          exact h2
        · rw [if_neg hab] at h1
          rw [if_pos hbc] at h2
          have hac : ¬ a.toNat = c.toNat := by rw [← hbc]; exact hab
          rw [if_neg hac]
          rw [← hbc]
          exact h1
        · rw [if_neg hab] at h1
          rw [if_neg hbc] at h2
          have hlt1 : a.toNat < b.toNat := by simpa using h1
          have hlt2 : b.toNat < c.toNat := by simpa using h2
          have hac : ¬ a.toNat = c.toNat := by omega
          rw [if_neg hac]
          simp
          omega

theorem valueLe_total (a b : Value) : valueLe a b = true ∨ valueLe b a = true := by
  cases a <;> cases b <;>
    simp [valueLe, strLe, Value.numVal] <;>
    first
      | exact charListLe_total _ _
      | omega

theorem valueLe_trans (a b c : Value) (h1 : valueLe a b = true)
    (h2 : valueLe b c = true) : valueLe a c = true := by
  cases a <;> cases b <;> cases c <;>
    simp [valueLe, strLe, Value.numVal] at h1 h2 ⊢ <;>
    first
      | exact charListLe_trans _ _ _ h1 h2
      | omega

theorem insertSorted_perm (v : Value) (l : List Value) :
    (insertSorted v l).Perm (v :: l) := by
  induction l with
  | nil => simp [insertSorted]
  | cons w ws ih =>
    by_cases h : valueLe v w = true
    · simp [insertSorted, h]
    · simp only [insertSorted, if_neg h]
      exact (ih.cons w).trans (List.Perm.swap v w ws)

theorem pySort_perm (l : List Value) : (pySort l).Perm l := by
  induction l with
  | nil => simp [pySort]
  | cons v vs ih => exact (insertSorted_perm v (pySort vs)).trans (ih.cons v)

theorem pairwise_insertSorted (v : Value) (l : List Value)
    (h : List.Pairwise (fun a b => valueLe a b = true) l) :
    List.Pairwise (fun a b => valueLe a b = true) (insertSorted v l) := by
  induction l with
  | nil => simp [insertSorted]
  | cons w ws ih =>
    rcases List.pairwise_cons.1 h with ⟨hw, hws⟩
    by_cases hvw : valueLe v w = true
    · simp only [insertSorted, if_pos hvw]
      refine List.pairwise_cons.2 ⟨?_, h⟩
      intro x hx
      rcases List.mem_cons.1 hx with rfl | hx
      · exact hvw
      · exact valueLe_trans v w x hvw (hw x hx)
    · have hwv : valueLe w v = true := (valueLe_total v w).resolve_left hvw
      simp only [insertSorted, if_neg hvw]
      refine List.pairwise_cons.2 ⟨?_, ih hws⟩
      intro x hx
      have hx2 : x = v ∨ x ∈ ws := by
        have := (insertSorted_perm v ws).mem_iff.1 hx
        simpa using this
      rcases hx2 with rfl | hx2
      · exact hwv
      · exact hw x hx2

theorem pySort_pairwise (l : List Value) :
    List.Pairwise (fun a b => valueLe a b = true) (pySort l) := by
  induction l with
  | nil => simp [pySort]
  | cons v vs ih => exact pairwise_insertSorted v (pySort vs) ih

theorem mem_pyUniqueAux (seen : List Value) (xs : List Value) (w : Value)
    (hw : w ∈ pyUniqueAux seen xs) : w ∈ xs := by
  induction xs generalizing seen with
  | nil => simp [pyUniqueAux] at hw
  | cons v vs ih =>
    by_cases h : (seen.any (fun u => u.pyEq v)) = true
    · simp only [pyUniqueAux, if_pos h] at hw
      exact List.mem_cons_of_mem v (ih seen hw)
    · simp only [pyUniqueAux, if_neg h] at hw
      rcases List.mem_cons.1 hw with rfl | hw
      · exact List.mem_cons_self w vs
      · exact List.mem_cons_of_mem v (ih (v :: seen) hw)

theorem pyUniqueAux_complete (xs : List Value) : ∀ (seen : List Value) (v : Value),
    v ∈ xs →
    (∃ w ∈ pyUniqueAux seen xs, w.pyEq v = true) ∨ (∃ w ∈ seen, w.pyEq v = true) := by
  induction xs with
  | nil => intro seen v hv; simp at hv
  | cons u us ih =>
    intro seen v hv
    by_cases h : (seen.any (fun w => w.pyEq u)) = true
    · rcases List.mem_cons.1 hv with rfl | hv
      · right
        rcases List.any_eq_true.1 h with ⟨w, hw, hwe⟩
        exact ⟨w, hw, by simpa using hwe⟩
      · have h0 := ih seen v hv
        simp only [pyUniqueAux]
        rw [if_pos h]
        exact h0
    · rcases List.mem_cons.1 hv with rfl | hv
      · left
        refine ⟨v, ?_, Value.pyEq_refl v⟩
        simp only [pyUniqueAux]
        rw [if_neg h]
        exact List.mem_cons_self v _
      · rcases ih (u :: seen) v hv with ⟨w, hw, hwe⟩ | ⟨w, hw, hwe⟩
        · left
          refine ⟨w, ?_, hwe⟩
          simp only [pyUniqueAux]
          rw [if_neg h]
          exact List.mem_cons_of_mem u hw
        · rcases List.mem_cons.1 hw with rfl | hw2
          · left
            refine ⟨w, ?_, hwe⟩
            simp only [pyUniqueAux]
            rw [if_neg h]
            exact List.mem_cons_self w _
          · right
            exact ⟨w, hw2, hwe⟩

theorem pyUniqueAux_pairwise (xs : List Value) : ∀ seen : List Value,
    List.Pairwise (fun a b => a.pyEq b = false) (pyUniqueAux seen xs) ∧
    (∀ w ∈ pyUniqueAux seen xs, ∀ s ∈ seen, s.pyEq w = false) := by
  induction xs with
  | nil => intro seen; simp [pyUniqueAux]
  | cons u us ih =>
    intro seen
    by_cases h : (seen.any (fun w => w.pyEq u)) = true
    · have h0 := ih seen
      simp only [pyUniqueAux]
      rw [if_pos h]
      exact h0
    · have hno : ∀ s ∈ seen, s.pyEq u = false := by
        intro s hs
        by_contra hc
        exact h (List.any_eq_true.2 ⟨s, hs, by simpa using eq_true_of_ne_false hc⟩)
      rcases ih (u :: seen) with ⟨hp, hseen⟩
      constructor
      · simp only [pyUniqueAux, if_neg h]
        refine List.pairwise_cons.2 ⟨?_, hp⟩
        intro w hw
        exact hseen w hw u (List.mem_cons_self u seen)
      · intro w hw s hs
        simp only [pyUniqueAux, if_neg h] at hw
        rcases List.mem_cons.1 hw with rfl | hw2
        · exact hno s hs
        · exact hseen w hw2 s (List.mem_cons_of_mem u hs)

theorem pyUnique_nodup (xs : List Value) : (pyUnique xs).Nodup := by
  have hp := (pyUniqueAux_pairwise xs []).1
  refine hp.imp ?_
  intro a b hab heq
  subst heq
  rw [Value.pyEq_refl] at hab
  exact absurd hab (by decide)

theorem applyFilters_cons (cols : List String) (p : String × Option Value)
    (ps : Filters) (rows : List Row) :
    applyFilters cols (p :: ps) rows =
      applyFilters cols ps
        (if cvalTruthy p.2 && cols.contains p.1 then
          rows.filter (fun r => cellMatches (rowGet cols r.2 p.1) p.2)
        else rows) := rfl

theorem eqFalse_not_eqTrue {b : Bool} (h : b = false) : ¬ b = true := by
  simp [h]

theorem applyFilters_eq_filter (cols : List String) (fs : Filters) :
    ∀ rows : List Row, applyFilters cols fs rows = rows.filter (keepRow cols fs) := by
  induction fs with
  | nil =>
    intro rows
    show rows = rows.filter (keepRow cols [])
    symm
    refine List.filter_eq_self.2 ?_
    intro r _
    rfl
  | cons p ps ih =>
    intro rows
    rw [applyFilters_cons]
    by_cases hc : (cvalTruthy p.2 && cols.contains p.1) = true
    · rw [if_pos hc, ih, List.filter_filter]
      congr 1
      funext r
      simp only [keepRow, keepCells, List.all_cons]
      rw [if_pos hc, Bool.and_comm]
    · rw [if_neg hc, ih]
      congr 1
      funext r
      simp only [keepRow, keepCells, List.all_cons]
      rw [if_neg hc, Bool.true_and]

theorem applyFilters_append (cols : List String) (A B : Filters) (rows : List Row) :
    applyFilters cols (A ++ B) rows = applyFilters cols B (applyFilters cols A rows) :=
  List.foldl_append _ _ _ _

theorem applyFilters_skip (cols : List String) (A B : Filters) (c : String)
    (v : Option Value) (rows : List Row)
    (h : (cvalTruthy v && cols.contains c) = false) :
    applyFilters cols (A ++ (c, v) :: B) rows = applyFilters cols (A ++ B) rows := by
  rw [applyFilters_append, applyFilters_append, applyFilters_cons]
  rw [if_neg (eqFalse_not_eqTrue h)]

theorem rowFilter_skip (df : DataFrame) (A B : Filters) (c : String) (v : Option Value)
    (h : (cvalTruthy v && df.cols.contains c) = false) :
    rowFilter df (A ++ (c, v) :: B) = rowFilter df (A ++ B) := by
  unfold rowFilter
  rw [applyFilters_skip df.cols A B c v df.rows h]

theorem get_filtered_values_skip (df : DataFrame) (col : String) (A B : Filters)
    (c : String) (v : Option Value)
    (h : (cvalTruthy v && df.cols.contains c) = false) :
    get_filtered_values df col (A ++ (c, v) :: B) = get_filtered_values df col (A ++ B) := by
  unfold get_filtered_values
  rw [rowFilter_skip df A B c v h]

theorem keepCells_iff (cols : List String) (fs : Filters) (cells : List (Option Value)) :
    keepCells cols fs cells = true ↔
      ∀ p ∈ fs, cvalTruthy p.2 = true → cols.contains p.1 = true →
        cellMatches (rowGet cols cells p.1) p.2 = true := by
  unfold keepCells
  rw [List.all_eq_true]
  constructor
  · intro h p hp ht hc
    have h0 := h p hp
    rwa [if_pos (by rw [ht, hc]; rfl)] at h0
  · intro h p hp
    by_cases h1 : (cvalTruthy p.2 && cols.contains p.1) = true
    · rw [if_pos h1]
      have h2 : cvalTruthy p.2 = true ∧ cols.contains p.1 = true := by simpa using h1
      exact h p hp h2.1 h2.2
    · rw [if_neg h1]

theorem rowFilter_rows_eq (df : DataFrame) (fs : Filters) :
    (rowFilter df fs).rows = df.rows.filter (keepRow df.cols fs) :=
  applyFilters_eq_filter df.cols fs df.rows

theorem rowFilter_rowFilter (df : DataFrame) (A B : Filters) :
    rowFilter (rowFilter df A) B = rowFilter df (A ++ B) := by
  unfold rowFilter
  rw [applyFilters_append]

theorem resolver_sound (df : DataFrame) (col : String) (fs : Filters) (v : Value)
    (hv : v ∈ get_filtered_values df col fs) :
    ∃ r ∈ (rowFilter df fs).rows, rowGet df.cols r.2 col = some v := by
  unfold get_filtered_values at hv
  by_cases h : df.cols.contains col = true
  · rw [if_pos h] at hv
    have h1 := (pySort_perm _).mem_iff.1 hv
    have h2 := mem_pyUniqueAux _ _ _ h1
    unfold dropna at h2
    rcases List.mem_filterMap.1 h2 with ⟨a, ha, hav⟩
    rcases List.mem_map.1 ha with ⟨r, hr, hra⟩
    refine ⟨r, hr, ?_⟩
    rw [hra]
    exact hav
  · rw [if_neg h] at hv
    simp at hv

theorem resolver_complete (df : DataFrame) (col : String) (fs : Filters)
    (h : df.cols.contains col = true) (r : Row) (hr : r ∈ (rowFilter df fs).rows)
    (v : Value) (hv : rowGet df.cols r.2 col = some v) :
    ∃ w ∈ get_filtered_values df col fs, w.pyEq v = true := by
  have hmem : some v ∈ (rowFilter df fs).rows.map (fun r => rowGet df.cols r.2 col) :=
    List.mem_map.2 ⟨r, hr, hv⟩
  have hd : v ∈ dropna ((rowFilter df fs).rows.map (fun r => rowGet df.cols r.2 col)) :=
    List.mem_filterMap.2 ⟨some v, hmem, rfl⟩
  rcases pyUniqueAux_complete _ [] v hd with ⟨w, hw, hwe⟩ | ⟨w, hw, _⟩
  · refine ⟨w, ?_, hwe⟩
    unfold get_filtered_values
    rw [if_pos h]
    exact (pySort_perm _).mem_iff.2 hw
  · simp at hw

theorem resolver_sorted (df : DataFrame) (col : String) (fs : Filters) :
    List.Pairwise (fun a b => valueLe a b = true) (get_filtered_values df col fs) := by
  unfold get_filtered_values
  by_cases h : df.cols.contains col = true
  · rw [if_pos h]
    exact pySort_pairwise _
  · rw [if_neg h]
    simp

theorem resolver_nodup (df : DataFrame) (col : String) (fs : Filters) :
    (get_filtered_values df col fs).Nodup := by
  unfold get_filtered_values
  by_cases h : df.cols.contains col = true
  · rw [if_pos h]
    exact (pySort_perm _).nodup_iff.2 (pyUnique_nodup _)
  · rw [if_neg h]
    simp

theorem render_row_eq (cols : List String) (r : Row) :
    render_row cols r = row_html_colored cols r.2 (apply_status_background r.1) := rfl

theorem isEmpty_eq_of_length_eq {α β : Type} (A : List α) (B : List β)
    (h : A.length = B.length) : A.isEmpty = B.isEmpty := by
  cases A <;> cases B <;> simp_all

theorem filtered_render_orig (cols : List String) (fs : Filters) :
    ∀ (rows : List Row) (n : Nat), labelsFrom n rows →
    (rows.filter (keepRow cols fs)).map (render_row cols) =
      ((List.enumFrom n (rows.map Prod.snd)).filter
          (fun jc => keepCells cols fs jc.2)).map
        (fun jc => row_html_colored cols jc.2 (apply_status_background jc.1)) := by
  intro rows
  induction rows with
  | nil =>
    intro n _
    rfl
  | cons r rs ih =>
    intro n hl
    have hl2 : r.1 = n ∧ labelsFrom (n + 1) rs := hl
    rcases hl2 with ⟨h1, h2⟩
    simp only [List.map_cons, List.enumFrom]
    by_cases hk : keepRow cols fs r = true
    · have hk2 : keepCells cols fs r.2 = true := hk
      have hR : List.filter (fun jc => keepCells cols fs jc.2)
            ((n, r.2) :: List.enumFrom (n + 1) (rs.map Prod.snd)) =
          (n, r.2) :: List.filter (fun jc => keepCells cols fs jc.2)
            (List.enumFrom (n + 1) (rs.map Prod.snd)) := by
        simp [List.filter_cons, hk2]
      rw [List.filter_cons_of_pos hk, hR]
      simp only [List.map_cons]
      rw [ih (n + 1) h2, render_row_eq, h1]
    · have hk2 : keepCells cols fs r.2 = false := by
        have : keepRow cols fs r = false := by simpa using hk
        exact this
      have hR : List.filter (fun jc => keepCells cols fs jc.2)
            ((n, r.2) :: List.enumFrom (n + 1) (rs.map Prod.snd)) =
          List.filter (fun jc => keepCells cols fs jc.2)
            (List.enumFrom (n + 1) (rs.map Prod.snd)) := by
        simp [List.filter_cons, hk2]
      rw [List.filter_cons_of_neg hk, hR]
      exact ih (n + 1) h2

theorem get_filtered_values_call_frame (env : ResolverEnv) (column_name : String) :
    (get_filtered_values_call env column_name).2 = env ∧
    (get_filtered_values_call env column_name).1 =
      get_filtered_values env.dfObj column_name env.filtersObj := by
  unfold get_filtered_values_call get_filtered_values
  by_cases h : env.dfObj.cols.contains column_name = true
  · rw [if_pos h, if_pos h]
    exact ⟨rfl, rfl⟩
  · rw [if_neg h, if_neg h]
    exact ⟨rfl, rfl⟩

theorem mainFilterStep_ok (df : DataFrame) (col : String) (sel : Option Value)
    (h : cvalTruthy sel = true → df.cols.contains col = true) :
    mainFilterStep df col sel = Except.ok (rowFilter df [(col, sel)]) := by
  cases ht : cvalTruthy sel with
  | false =>
    unfold mainFilterStep
    rw [if_neg (eqFalse_not_eqTrue ht)]
    unfold rowFilter applyFilters
    simp [ht]
  | true =>
    have hc := h ht
    have hmem : col ∈ df.cols := by simpa using hc
    unfold mainFilterStep dfMaskFilter
    rw [if_pos ht, if_pos hc]
    unfold rowFilter applyFilters
    simp [ht, hc, hmem]

theorem contains_of_mem {l : List String} {a : String} (h : a ∈ l) : l.contains a = true :=
  List.elem_iff.mpr h

theorem mem_of_contains {l : List String} {a : String} (h : l.contains a = true) : a ∈ l :=
  List.elem_iff.mp h

theorem callSeq_id (calls : List String) : ∀ env : ResolverEnv,
    calls.foldl (fun e c => (get_filtered_values_call e c).2) env = env := by
  induction calls with
  | nil => intro env; rfl
  | cons c cs ih =>
    intro env
    rw [List.foldl_cons, (get_filtered_values_call_frame env c).1]
    exact ih env

/-- Shorthand for a present string cell, used by the example tables. -/
def sv (s : String) : Option Value := some (Value.str s)

/-- Example table with canonical labels 0,1,2 used to instantiate the
claims on concrete data. -/
def exDf : DataFrame :=
  ⟨["Week", "Project Status"],
   [(0, [sv ("W1"), sv ("G")]),
    (1, [sv ("W2"), sv ("R")]),
    (2, [sv ("W1"), sv ("A")])]⟩

/-- Example constraint set selecting the single middle row of exDf. -/
def exFilters1 : Filters := [(("Week" : String), sv ("W2"))]

/-- Example numeric table whose first row holds the falsy value 0. -/
def exDfNum : DataFrame :=
  ⟨["Week"], [(0, [some (Value.int 0)]), (1, [some (Value.int 3)])]⟩

/-- Example parsed frame whose first column name carries spaces. -/
def exParsed : DataFrame :=
  ⟨[" Week ", "Project Status"], [(0, [sv ("W1"), sv ("G")])]⟩

/-- Example uploaded CSV file; the spreadsheet parser is irrelevant for it
and deliberately errors. -/
def exFile : UploadedFile :=
  ⟨"data.csv", Except.error ("not a spreadsheet"), Except.ok exParsed⟩

/-- C8: a table with zero rows renders as the fixed no-data message,
whatever its column schema. -/
theorem C8_empty_renders_no_data (df : DataFrame) (h : df.rows = []) :
    generate_styled_table_html df = noDataMsg := by
  unfold generate_styled_table_html DataFrame.empty
  rw [h]
  simp

theorem C8_witness :
    (DataFrame.mk ["Week", "Project Status"] []).rows = [] ∧
    generate_styled_table_html (DataFrame.mk ["Week", "Project Status"] []) = noDataMsg :=
  ⟨rfl, C8_empty_renders_no_data (DataFrame.mk ["Week", "Project Status"] []) rfl⟩

/-- C9: the resolver body never writes its reference arguments: threaded
as explicit state, the frame/constraint-dict environment comes back
unchanged from a call, its value is the pure function of the inputs, and
any sequence of calls leaves the environment (in particular the shared
mutable default dict) exactly as it started. -/
theorem C9_resolver_no_mutation (env : ResolverEnv) (column_name : String)
    (calls : List String) :
    (get_filtered_values_call env column_name).2 = env ∧
    (get_filtered_values_call env column_name).1 =
      get_filtered_values env.dfObj column_name env.filtersObj ∧
    calls.foldl (fun e c => (get_filtered_values_call e c).2) env = env :=
  ⟨(get_filtered_values_call_frame env column_name).1,
   (get_filtered_values_call_frame env column_name).2,
   callSeq_id calls env⟩

theorem C9_witness :
    (get_filtered_values_call ⟨exDf, []⟩ ("Week")).2 = ⟨exDf, []⟩ ∧
    (get_filtered_values_call ⟨exDf, []⟩ ("Week")).1 =
      get_filtered_values exDf ("Week") [] ∧
    (["Week", "Account Name"] : List String).foldl
      (fun e c => (get_filtered_values_call e c).2) ⟨exDf, []⟩ = ⟨exDf, []⟩ :=
  C9_resolver_no_mutation ⟨exDf, []⟩ ("Week") ["Week", "Account Name"]

/-- C10: a constraint whose value is falsy (None, 0, the empty string, or
False) is skipped by both the Row Filter and the Resolver, so inserting
such a binding anywhere in a constraint set changes neither result, even
on tables whose rows contain that very value. -/
theorem C10_falsy_skipped (df : DataFrame) (col : String) (A B : Filters)
    (c : String) (v : Option Value) (h : cvalTruthy v = false) :
    cvalTruthy none = false ∧
    cvalTruthy (some (Value.int 0)) = false ∧
    cvalTruthy (some (Value.str "")) = false ∧
    cvalTruthy (some (Value.bool false)) = false ∧
    rowFilter df (A ++ (c, v) :: B) = rowFilter df (A ++ B) ∧
    get_filtered_values df col (A ++ (c, v) :: B) = get_filtered_values df col (A ++ B) := by
  have hand : (cvalTruthy v && df.cols.contains c) = false := by
    rw [h, Bool.false_and]
  exact ⟨rfl, rfl, rfl, rfl,
    rowFilter_skip df A B c v hand,
    get_filtered_values_skip df col A B c v hand⟩

theorem C10_witness :
    cvalTruthy (some (Value.int 0)) = false ∧
    rowFilter exDfNum ([] ++ (("Week" : String), some (Value.int 0)) :: []) =
      rowFilter exDfNum ([] ++ []) ∧
    get_filtered_values exDfNum ("Week") ([] ++ (("Week" : String), some (Value.int 0)) :: []) =
      get_filtered_values exDfNum ("Week") ([] ++ []) := by
  have h := C10_falsy_skipped exDfNum ("Week") [] [] ("Week") (some (Value.int 0)) (by decide)
  exact ⟨h.2.1, h.2.2.2.2.1, h.2.2.2.2.2⟩

/-- C6: resolving with an absent target column yields the empty list, and
a constraint on an absent column is ignored by the resolver; both cases
are ordinary total computations. -/
theorem C6_absent_columns (df : DataFrame) (col : String) (C A B : Filters)
    (c : String) (v : Option Value) :
    (¬ col ∈ df.cols → get_filtered_values df col C = []) ∧
    (¬ c ∈ df.cols →
      get_filtered_values df col (A ++ (c, v) :: B) = get_filtered_values df col (A ++ B)) := by
  constructor
  · intro h1
    have h1c : df.cols.contains col = false := by
      by_contra hne
      exact h1 (mem_of_contains (eq_true_of_ne_false hne))
    unfold get_filtered_values
    rw [if_neg (eqFalse_not_eqTrue h1c)]
  · intro h2
    have h2c : df.cols.contains c = false := by
      by_contra hne
      exact h2 (mem_of_contains (eq_true_of_ne_false hne))
    exact get_filtered_values_skip df col A B c v (by rw [h2c, Bool.and_false])

theorem C6_witness :
    ¬ ("Client Name" : String) ∈ exDf.cols ∧
    get_filtered_values exDf ("Client Name") exFilters1 = [] ∧
    get_filtered_values exDf ("Week") ([] ++ (("Client Name" : String), sv ("X")) :: []) =
      get_filtered_values exDf ("Week") ([] ++ []) := by
  have hA := C6_absent_columns exDf ("Client Name") exFilters1 [] [] ("Client Name") (sv ("X"))
  have hB := C6_absent_columns exDf ("Week") [] [] [] ("Client Name") (sv ("X"))
  exact ⟨by decide, hA.1 (by decide), hB.2 (by decide)⟩

/-- C7: with the empty constraint set the resolver returns exactly the
distinct non-missing values of the target column of the full table:
every returned value occurs in some row, and every value present in some
row is represented in the result up to Python equality. -/
theorem C7_empty_constraint_set (df : DataFrame) (col : String) (h : col ∈ df.cols) :
    (∀ v ∈ get_filtered_values df col [], ∃ r ∈ df.rows, rowGet df.cols r.2 col = some v) ∧
    (∀ r ∈ df.rows, ∀ v : Value, rowGet df.cols r.2 col = some v →
      ∃ w ∈ get_filtered_values df col [], w.pyEq v = true) := by
  constructor
  · intro v hv
    exact resolver_sound df col [] v hv
  · intro r hr v hv
    exact resolver_complete df col [] (contains_of_mem h) r hr v hv

theorem C7_witness :
    ("Week" : String) ∈ exDf.cols ∧
    (Value.str ("W1") ∈ get_filtered_values exDf ("Week") [] →
      ∃ r ∈ exDf.rows, rowGet exDf.cols r.2 ("Week") = some (Value.str ("W1"))) := by
  refine ⟨by decide, ?_⟩
  intro hv
  exact (C7_empty_constraint_set exDf ("Week") (by decide)).1 (Value.str ("W1")) hv

/-- C4: for a present target column the resolver's output is sorted
ascending, duplicate-free, contains only values read from rows surviving
the constraint set, and represents (up to Python equality) every
non-missing value of the target column among the surviving rows. -/
theorem C4_resolver_characterization (df : DataFrame) (col : String) (C : Filters)
    (h : col ∈ df.cols) :
    List.Pairwise (fun a b => valueLe a b = true) (get_filtered_values df col C) ∧
    (get_filtered_values df col C).Nodup ∧
    (∀ v ∈ get_filtered_values df col C,
      ∃ r ∈ (rowFilter df C).rows, rowGet df.cols r.2 col = some v) ∧
    (∀ r ∈ (rowFilter df C).rows, ∀ v : Value, rowGet df.cols r.2 col = some v →
      ∃ w ∈ get_filtered_values df col C, w.pyEq v = true) := by
  refine ⟨resolver_sorted df col C, resolver_nodup df col C, ?_, ?_⟩
  · intro v hv
    exact resolver_sound df col C v hv
  · intro r hr v hv
    exact resolver_complete df col C (contains_of_mem h) r hr v hv

theorem C4_witness :
    ("Week" : String) ∈ exDf.cols ∧
    List.Pairwise (fun a b => valueLe a b = true) (get_filtered_values exDf ("Week") exFilters1) ∧
    (get_filtered_values exDf ("Week") exFilters1).Nodup := by
  have h := C4_resolver_characterization exDf ("Week") exFilters1 (by decide)
  exact ⟨by decide, h.1, h.2.1⟩

/-- C3: the Row Filter preserves the column schema, its surviving rows
form a sublist of the input rows (subset by row identity, original
relative order), and a row survives exactly when every truthy constraint
on a present column matches its cell; the result is always a table,
possibly with zero rows. -/
theorem C3_row_filter_characterization (df : DataFrame) (C : Filters) :
    (rowFilter df C).cols = df.cols ∧
    (rowFilter df C).rows.Sublist df.rows ∧
    ∀ r : Row, r ∈ (rowFilter df C).rows ↔
      (r ∈ df.rows ∧ ∀ p ∈ C, cvalTruthy p.2 = true → p.1 ∈ df.cols →
        cellMatches (rowGet df.cols r.2 p.1) p.2 = true) := by
  refine ⟨rfl, ?_, ?_⟩
  · rw [rowFilter_rows_eq]
    exact List.filter_sublist _
  · intro r
    rw [rowFilter_rows_eq, List.mem_filter]
    constructor
    · rintro ⟨hmem, hk⟩
      refine ⟨hmem, ?_⟩
      intro p hp ht hcmem
      exact (keepCells_iff df.cols C r.2).1 hk p hp ht (contains_of_mem hcmem)
    · rintro ⟨hmem, hall⟩
      refine ⟨hmem, ?_⟩
      show keepCells df.cols C r.2 = true
      refine (keepCells_iff df.cols C r.2).2 ?_
      intro p hp ht hcont
      exact hall p hp ht (mem_of_contains hcont)

theorem C3_witness :
    (rowFilter exDf exFilters1).cols = exDf.cols ∧
    (rowFilter exDf exFilters1).rows.Sublist exDf.rows ∧
    ((1, [sv ("W2"), sv ("R")]) ∈ (rowFilter exDf exFilters1).rows ↔
      ((1, [sv ("W2"), sv ("R")]) ∈ exDf.rows ∧
        ∀ p ∈ exFilters1, cvalTruthy p.2 = true → p.1 ∈ exDf.cols →
          cellMatches (rowGet exDf.cols [sv ("W2"), sv ("R")] p.1) p.2 = true)) := by
  have h := C3_row_filter_characterization exDf exFilters1
  exact ⟨h.1, h.2.1, h.2.2 (1, [sv ("W2"), sv ("R")])⟩

/-- Example table with all four filter columns and canonical labels. -/
def exDf4 : DataFrame :=
  ⟨["Week", "Account Name", "Client Name", "Project Name", "Project Status"],
   [(0, [sv ("W1"), sv ("Acme"), sv ("CX"), sv ("P1"), sv ("G")]),
    (1, [sv ("W1"), sv ("Bolt"), sv ("CY"), sv ("P2"), sv ("R")])]⟩

set_option maxRecDepth 8192 in
/-- C1 counterexample: the renderer does not color a filtered table by
rendered position.  Filtering exDf down to its middle row leaves one data
row, whose Project Status cell the code colors by the preserved pandas
label 1 (palette entry 1), while position-0 coloring would use palette
entry 0; the two outputs differ. -/
theorem C1_positional_counterexample :
    generate_styled_table_html (rowFilter exDf exFilters1) ≠
      generate_positional_html (rowFilter exDf exFilters1) := by decide

/-- C1 (amended): each rendered data row's Project Status cell is colored
by the row's index label mod 5 — its position in the originally loaded
table, which filtering preserves — not by its position in the rendered
order.  For a table whose labels enumerate positions from 0 (as a loaded
table's default index does), rendering the filtered table equals
rendering its surviving rows colored by their original positions. -/
theorem C1_color_by_original_index (df : DataFrame) (fs : Filters)
    (h : labelsCanonical df) :
    generate_styled_table_html (rowFilter df fs) = renderByOrigPos df fs := by
  have hmain := filtered_render_orig df.cols fs df.rows 0 h
  have hlen : (df.rows.filter (keepRow df.cols fs)).length =
      ((List.enumFrom 0 (df.rows.map Prod.snd)).filter
        (fun jc => keepCells df.cols fs jc.2)).length := by
    have h2 := congrArg List.length hmain
    simpa using h2
  have hemp := isEmpty_eq_of_length_eq _ _ hlen
  dsimp only [generate_styled_table_html, renderByOrigPos, DataFrame.empty, rowFilter,
    List.enum]
  rw [applyFilters_eq_filter df.cols fs df.rows]
  rw [hemp, hmain]

theorem C1_witness :
    labelsCanonical exDf ∧
    generate_styled_table_html (rowFilter exDf exFilters1) = renderByOrigPos exDf exFilters1 := by
  have hl : labelsCanonical exDf := ⟨rfl, rfl, rfl, trivial⟩
  exact ⟨hl, C1_color_by_original_index exDf exFilters1 hl⟩

/-- C2: a constraint on a column absent from the table is ignored by the
Row Filter (a no-op, not an error), and the submit handler's unrolled
filtering never raises: whenever each truthy selection's column is
present (which the cascade guarantees, since a selection can only be
drawn from resolver options and the resolver of an absent column offers
none), it returns the Row Filter of the four selections. -/
theorem C2_absent_column_is_noop (df : DataFrame) (A B : Filters) (c : String)
    (v : Option Value) (hc : ¬ c ∈ df.cols) :
    rowFilter df (A ++ (c, v) :: B) = rowFilter df (A ++ B) ∧
    ∀ w a k p : Option Value,
      (cvalTruthy w = true → ("Week" : String) ∈ df.cols) →
      (cvalTruthy a = true → ("Account Name" : String) ∈ df.cols) →
      (cvalTruthy k = true → ("Client Name" : String) ∈ df.cols) →
      (cvalTruthy p = true → ("Project Name" : String) ∈ df.cols) →
      main_filtered_data df w a k p =
        Except.ok (rowFilter df
          [(("Week" : String), w), (("Account Name" : String), a),
           (("Client Name" : String), k), (("Project Name" : String), p)]) := by
  have hcf : df.cols.contains c = false := by
    by_contra hne
    exact hc (mem_of_contains (eq_true_of_ne_false hne))
  constructor
  · exact rowFilter_skip df A B c v (by rw [hcf, Bool.and_false])
  · intro w a k p h1 h2 h3 h4
    have e1 : mainFilterStep df ("Week") w =
        Except.ok (rowFilter df [(("Week" : String), w)]) :=
      mainFilterStep_ok df ("Week") w (fun ht => contains_of_mem (h1 ht))
    have e2 : mainFilterStep (rowFilter df [(("Week" : String), w)]) ("Account Name") a =
        Except.ok (rowFilter df
          [(("Week" : String), w), (("Account Name" : String), a)]) := by
      rw [mainFilterStep_ok (rowFilter df [(("Week" : String), w)]) ("Account Name") a
        (fun ht => contains_of_mem (h2 ht)), rowFilter_rowFilter]
      rfl
    have e3 : mainFilterStep
        (rowFilter df [(("Week" : String), w), (("Account Name" : String), a)])
        ("Client Name") k =
        Except.ok (rowFilter df
          [(("Week" : String), w), (("Account Name" : String), a),
           (("Client Name" : String), k)]) := by
      rw [mainFilterStep_ok
        (rowFilter df [(("Week" : String), w), (("Account Name" : String), a)])
        ("Client Name") k (fun ht => contains_of_mem (h3 ht)), rowFilter_rowFilter]
      rfl
    have e4 : mainFilterStep
        (rowFilter df [(("Week" : String), w), (("Account Name" : String), a),
          (("Client Name" : String), k)])
        ("Project Name") p =
        Except.ok (rowFilter df
          [(("Week" : String), w), (("Account Name" : String), a),
           (("Client Name" : String), k), (("Project Name" : String), p)]) := by
      rw [mainFilterStep_ok
        (rowFilter df [(("Week" : String), w), (("Account Name" : String), a),
          (("Client Name" : String), k)])
        ("Project Name") p (fun ht => contains_of_mem (h4 ht)), rowFilter_rowFilter]
      rfl
    unfold main_filtered_data
    rw [e1]
    dsimp only
    rw [e2]
    dsimp only
    rw [e3]
    dsimp only
    exact e4

theorem C2_witness :
    ¬ ("Nope" : String) ∈ exDf4.cols ∧
    rowFilter exDf4 ([] ++ (("Nope" : String), sv ("x")) :: []) = rowFilter exDf4 ([] ++ []) ∧
    main_filtered_data exDf4 (sv ("W1")) none none none =
      Except.ok (rowFilter exDf4
        [(("Week" : String), sv ("W1")), (("Account Name" : String), none),
         (("Client Name" : String), none), (("Project Name" : String), none)]) := by
  have h := C2_absent_column_is_noop exDf4 [] [] ("Nope") (sv ("x")) (by decide)
  exact ⟨by decide, h.1,
    h.2 (sv ("W1")) none none none (fun _ => by decide) (fun _ => by decide)
      (fun _ => by decide) (fun _ => by decide)⟩

/-- C5: the loader passes nothing through on no input; dispatches on the
.xlsx name suffix to the spreadsheet parser and otherwise to the
delimited-text parser; on success returns the parsed table with every
column name whitespace-stripped, and re-filtering by a stripped name
succeeds (the stripped name is among the result's columns); on a parser
error emits a message wrapping the parser's own and returns no table. -/
theorem C5_loader (f : UploadedFile) (df : DataFrame) (msg : String) :
    load_data none = (none, none) ∧
    (pyEndsWith f.name (".xlsx") = true → f.parseExcel = Except.ok df →
      load_data (some f) = (none, some ⟨df.cols.map pyStrip, df.rows⟩)) ∧
    (pyEndsWith f.name (".xlsx") = false → f.parseCsv = Except.ok df →
      load_data (some f) = (none, some ⟨df.cols.map pyStrip, df.rows⟩)) ∧
    ((if pyEndsWith f.name (".xlsx") then f.parseExcel else f.parseCsv) = Except.error msg →
      load_data (some f) = (some ("Error loading file: " ++ msg), none)) ∧
    ((if pyEndsWith f.name (".xlsx") then f.parseExcel else f.parseCsv) = Except.ok df →
      ∀ c0 ∈ df.cols,
        (load_data (some f)).2 = some ⟨df.cols.map pyStrip, df.rows⟩ ∧
        (df.cols.map pyStrip).contains (pyStrip c0) = true) := by
  refine ⟨rfl, ?_, ?_, ?_, ?_⟩
  · intro he hok
    simp only [load_data]
    rw [if_pos he, hok]
  · intro he hok
    simp only [load_data]
    rw [if_neg (eqFalse_not_eqTrue he), hok]
  · intro herr
    simp only [load_data]
    rw [herr]
  · intro hok c0 hc0
    constructor
    · simp only [load_data]
      rw [hok]
    · exact contains_of_mem (List.mem_map_of_mem pyStrip hc0)

theorem C5_witness :
    load_data none = (none, none) ∧
    pyEndsWith exFile.name (".xlsx") = false ∧
    load_data (some exFile) = (none, some ⟨exParsed.cols.map pyStrip, exParsed.rows⟩) ∧
    (exParsed.cols.map pyStrip).contains (pyStrip (" Week ")) = true := by
  have h := C5_loader exFile exParsed ("boom")
  exact ⟨h.1, by decide, h.2.2.1 (by decide) rfl,
    (h.2.2.2.2 rfl (" Week ") (by decide)).2⟩
